import Mathlib

/-!
# Shallow embedding of the `circle-counter` repository

The repository implements a circular countdown timer widget in three
near-duplicate variants:

* `src/app/CircularTimer2.tsx` — the main variant: a `useTimer` hook with
  play/pause and stop handlers, 1-second ticks, and an overtime mode
  (namespace `CT2` below);
* `src/unnamed/part_000` — an earlier `CircularTimer2` without overtime,
  1-second ticks, completion deferred through `setTimeout(..., 0)`
  (namespace `P0`);
* `src/app/CircularTimer.tsx` — a 100 ms-tick variant with overtime and a
  `setTimeout(..., 0)`-deferred completion (namespace `CT1`).

Modeling conventions:

* Times are integers (`ℤ`) in the 1-second variants (the remaining time is
  only ever the duration minus a number of unit decrements) and rationals
  (`ℚ`) in the 100 ms variant; geometry (circumference, stroke offsets) is
  rational.
* React state plus the `initialDuration` mutable ref is collected into one
  state structure per variant.  The `setInterval` handle is abstracted to a
  Boolean `intervalActive`; the `useEffect` that creates/clears the interval
  after a render is a `settleInterval` function applied after every handler
  and tick (the interval callback closes over `isOvertime`, but because
  `isOvertime` is in the effect's dependency list the interval is recreated
  with the fresh value before the next tick fires, so a tick may read the
  current state directly).
* Invocations of the `onComplete` callback are counted in the state.  The
  `useTimer` variant calls `onComplete?.()` directly inside the
  `setRemainingTime` updater (no deferral), counted in `updaterCompletes`;
  the other two variants schedule it through `setTimeout(..., 0)`, counted
  in `deferredCompletes` (the timeout fires before the next interval tick,
  so its effects are collapsed into the tick that scheduled it).
* JavaScript division by zero produces `NaN`; the one computation that can
  divide by zero (`calculateStrokeDashoffset` in `CircularTimer.tsx`) is
  embedded with result type `Option ℚ`, `none` standing for the `NaN` case.
-/

namespace CircleCounter

/-- Props fixed for a run of the widget: the configured `duration` (seconds)
and the ring `circumference` (derived from `size` and `strokeWidth`). -/
structure Cfg where
  duration : ℤ
  circumference : ℚ
  deriving DecidableEq

/-! ## `CT2`: the `useTimer` hook of `src/app/CircularTimer2.tsx` -/

namespace CT2

/-- The state of `useTimer` (lines 117–123): the five `useState` values, the
`intervalRef` (abstracted to whether an interval is active), the
`initialDuration` ref, and a count of `onComplete` invocations made directly
inside the `setRemainingTime` updater. -/
structure TimerState where
  remainingTime : ℤ
  offset : ℚ
  isPlaying : Bool
  isOvertime : Bool
  overtimeOffset : ℚ
  intervalActive : Bool
  initialDuration : ℤ
  updaterCompletes : ℕ
  deriving DecidableEq

/-- Mount state: `remainingTime = duration`, `offset = 0`, not playing, not
overtime, `overtimeOffset = circumference`, no interval, ref = duration. -/
def initState (cfg : Cfg) : TimerState :=
  { remainingTime := cfg.duration
    offset := 0
    isPlaying := false
    isOvertime := false
    overtimeOffset := cfg.circumference
    intervalActive := false
    initialDuration := cfg.duration
    updaterCompletes := 0 }

/-- `handlePlayPause` (lines 129–140): when `remainingTime <= 0 && !isPlaying`
reset everything to the configured duration, then toggle `isPlaying`. -/
def handlePlayPause (cfg : Cfg) (st : TimerState) : TimerState :=
  let st1 :=
    if st.remainingTime ≤ 0 ∧ st.isPlaying = false then
      { st with
        remainingTime := cfg.duration
        offset := 0
        isOvertime := false
        overtimeOffset := cfg.circumference
        initialDuration := cfg.duration }
    else st
  { st1 with isPlaying := !st1.isPlaying }

/-- `handleStop` (lines 146–157): stop playing, reset the timer state and
clear the interval.  (The `initialDuration` ref is not touched here.) -/
def handleStop (cfg : Cfg) (st : TimerState) : TimerState :=
  { st with
    isPlaying := false
    remainingTime := cfg.duration
    offset := 0
    isOvertime := false
    overtimeOffset := cfg.circumference
    intervalActive := false }

/-- The reference window used for the overtime arc (line 189):
`initialDuration.current || 60` — the fallback 60 applies exactly when the
ref is falsy, i.e. zero. -/
def overtimeDivisor (st : TimerState) : ℤ :=
  if st.initialDuration = 0 then 60 else st.initialDuration

/-- The ratio computed by the overtime branch of the tick (lines 189–194):
`Math.min(1, Math.abs(nextTime) / overtimeDuration)` with
`nextTime = remainingTime - 1`. -/
def overtimeRatio (st : TimerState) : ℚ :=
  min 1 (((st.remainingTime - 1).natAbs : ℚ) / ((overtimeDivisor st : ℤ) : ℚ))

/-- The ratio computed by the normal branch of the tick (lines 199–202):
`Math.max(0, nextTime / initialDuration.current)`. -/
def currentRatio (st : TimerState) : ℚ :=
  max 0 (((st.remainingTime - 1 : ℤ) : ℚ) / ((st.initialDuration : ℤ) : ℚ))

/-- One firing of the interval callback (lines 175–209).  It only fires when
an interval is active.  `nextTime = prev - 1`; if `nextTime ≤ 0` the first
crossing sets `isOvertime`, fills the main ring (`offset := 0`) and invokes
`onComplete` directly inside the updater, and the overtime arc offset is
recomputed; otherwise the main arc offset is recomputed. -/
def tick (cfg : Cfg) (st : TimerState) : TimerState :=
  if st.intervalActive then
    if st.remainingTime - 1 ≤ 0 then
      let st1 :=
        if st.isOvertime = false then
          { st with
            isOvertime := true
            offset := 0
            updaterCompletes := st.updaterCompletes + 1 }
        else st
      { st1 with
        remainingTime := st.remainingTime - 1
        overtimeOffset := cfg.circumference * (1 - overtimeRatio st) }
    else
      { st with
        remainingTime := st.remainingTime - 1
        offset := cfg.circumference * (1 - currentRatio st) }
  else st

/-- The interval-management `useEffect` (lines 163–219), as observed after a
render settles: an interval is active exactly when the timer is playing. -/
def settleInterval (st : TimerState) : TimerState :=
  { st with intervalActive := st.isPlaying }

/-- The externally triggerable events of the hook. -/
inductive Ev
  | playPause
  | stop
  | tick
  deriving DecidableEq

/-- One event followed by the effect settling after the re-render. -/
def step (cfg : Cfg) : Ev → TimerState → TimerState
  | Ev.playPause, st => settleInterval (handlePlayPause cfg st)
  | Ev.stop, st => settleInterval (handleStop cfg st)
  | Ev.tick, st => settleInterval (tick cfg st)

/-- Run a finite sequence of events from the mount state. -/
def run (cfg : Cfg) (es : List Ev) : TimerState :=
  es.foldl (fun st e => step cfg e st) (initState cfg)

/-- `formatTime` (lines 242–256): absolute value, then minutes/seconds, both
zero-padded to two digits, with a `+` prefix exactly when in overtime.
(`Math.floor` is the identity on the integer inputs modeled here.) -/
def formatTime (isOvertime : Bool) (seconds : ℤ) : String :=
  let displaySeconds : ℕ := seconds.natAbs
  let totalSeconds := displaySeconds
  let minutes := totalSeconds / 60
  let remainingSeconds := totalSeconds % 60
  let formattedTime :=
    (if minutes < 10 then "0" else "") ++ toString minutes ++ ":" ++
      (if remainingSeconds < 10 then "0" else "") ++ toString remainingSeconds
  if isOvertime then "+" ++ formattedTime else formattedTime

end CT2

/-! ## `P0`: the `CircularTimer2` of `src/unnamed/part_000` (no overtime) -/

namespace P0

/-- The state of the unnamed variant: `remainingTime` and `offset`
(`useState(1)` — the offset starts at the constant 1, line 30), the external
`isPlaying` prop, the interval ref, the (never reassigned) `initialDuration`
ref, and a count of completions scheduled through `setTimeout(..., 0)`. -/
structure TimerState where
  remainingTime : ℤ
  offset : ℚ
  isPlaying : Bool
  intervalActive : Bool
  initialDuration : ℤ
  deferredCompletes : ℕ
  deriving DecidableEq

/-- Mount state: `remainingTime = duration`, `offset = 1`. -/
def initState (cfg : Cfg) : TimerState :=
  { remainingTime := cfg.duration
    offset := 1
    isPlaying := false
    intervalActive := false
    initialDuration := cfg.duration
    deferredCompletes := 0 }

/-- The `useEffect` (lines 53–90) after a render settles: the interval is
active exactly when playing and `remainingTime > 0` (the effect lists
`remainingTime` among its dependencies, so it is re-evaluated after every
tick; the cleanup clears a stale interval). -/
def settleInterval (st : TimerState) : TimerState :=
  { st with intervalActive := st.isPlaying ∧ 0 < st.remainingTime }

/-- The `isPlaying` prop flipping to `true`, plus the effect settling. -/
def start (st : TimerState) : TimerState :=
  settleInterval { st with isPlaying := true }

/-- One firing of the interval callback (lines 57–81).  `prev ≤ 1` is the
completion tick: it clears the interval, schedules `onComplete` through
`setTimeout(..., 0)` and returns 0, leaving `offset` untouched; otherwise the
offset is recomputed from `(prev - 1) / initialDuration.current` and the
remaining time decremented. -/
def tick (cfg : Cfg) (st : TimerState) : TimerState :=
  if st.intervalActive then
    if st.remainingTime ≤ 1 then
      { st with
        remainingTime := 0
        intervalActive := false
        deferredCompletes := st.deferredCompletes + 1 }
    else
      { st with
        remainingTime := st.remainingTime - 1
        offset :=
          cfg.circumference *
            (1 - ((st.remainingTime - 1 : ℤ) : ℚ) / ((st.initialDuration : ℤ) : ℚ)) }
  else st

/-- A tick followed by the effect settling after the re-render. -/
def tickStep (cfg : Cfg) (st : TimerState) : TimerState :=
  settleInterval (tick cfg st)

end P0

/-! ## `CT1`: `src/app/CircularTimer.tsx` (100 ms ticks, overtime) -/

namespace CT1

/-- The state of `CircularTimer`: remaining time and overtime seconds are
rationals (the tick granularity is 0.1 s), plus the overtime flag, the
`initialDuration` ref and a count of completions scheduled through
`setTimeout(..., 0)`. -/
structure CTState where
  remainingTime : ℚ
  isOvertime : Bool
  overtimeSeconds : ℚ
  initialDuration : ℚ
  deferredCompletes : ℕ
  deriving DecidableEq

/-- Mount state (lines 39–60): `remainingTime = duration`, no overtime. -/
def initState (duration : ℚ) : CTState :=
  { remainingTime := duration
    isOvertime := false
    overtimeSeconds := 0
    initialDuration := duration
    deferredCompletes := 0 }

/-- One firing of the 100 ms interval (lines 73–94).  In overtime the
overtime counter grows by 0.1; otherwise `prev ≤ 0.1` is the completion
tick — it clamps the remaining time to 0 and schedules (via
`setTimeout(..., 0)`, collapsed here) the switch to overtime together with
the `onComplete` call — and otherwise 0.1 is subtracted. -/
def tick (st : CTState) : CTState :=
  if st.isOvertime then
    { st with overtimeSeconds := st.overtimeSeconds + 1 / 10 }
  else if st.remainingTime ≤ 1 / 10 then
    { st with
      remainingTime := 0
      isOvertime := true
      deferredCompletes := st.deferredCompletes + 1 }
  else
    { st with remainingTime := st.remainingTime - 1 / 10 }

/-- `calculateStrokeDashoffset` (lines 170–181): 0 in overtime, otherwise
`circumference * (1 - remainingTime / initialDuration.current)` with no
guard on the divisor — `none` embeds the JavaScript `NaN` produced when
`initialDuration.current` is 0. -/
def calculateStrokeDashoffset (circumference : ℚ) (st : CTState) : Option ℚ :=
  if st.isOvertime then some 0
  else if st.initialDuration = 0 then none
  else some (circumference * (1 - st.remainingTime / st.initialDuration))

/-- `formatTime` (lines 153–164): minutes unpadded, seconds zero-padded,
with a `+` prefix exactly when the `overtime` argument is set. -/
def formatTime (seconds : ℚ) (overtime : Bool) : String :=
  let totalSeconds : ℤ := ⌊seconds⌋
  let minutes := totalSeconds / 60
  let remainingSeconds := totalSeconds % 60
  let formattedTime :=
    toString minutes ++ ":" ++
      (if remainingSeconds < 10 then "0" else "") ++ toString remainingSeconds
  if overtime then "+" ++ formattedTime else formattedTime

end CT1

/-- Modelled from the spec: the zero padding of the `MM:SS` display, used to
compare the source's `formatTime` against the spec's wording. -/
def zeroPad2 (n : ℕ) : String :=
  (if n < 10 then "0" else "") ++ toString n

/-- The `useTimer` state right after pressing play on a freshly mounted
widget. -/
def CT2.startState (cfg : Cfg) : CT2.TimerState :=
  CT2.step cfg CT2.Ev.playPause (CT2.initState cfg)

/-- The `useTimer` state after pressing play on a freshly mounted widget and
then letting the interval fire `k` times. -/
def CT2.afterTicks (cfg : Cfg) (k : ℕ) : CT2.TimerState :=
  (CT2.step cfg CT2.Ev.tick)^[k] (CT2.startState cfg)

/-- The unnamed variant's state right after the `isPlaying` prop flips to
true on a freshly mounted widget. -/
def P0.startState (cfg : Cfg) : P0.TimerState :=
  P0.start (P0.initState cfg)

/-- The unnamed variant's state after starting a freshly mounted widget and
then letting the interval fire `k` times. -/
def P0.afterTicks (cfg : Cfg) (k : ℕ) : P0.TimerState :=
  (P0.tickStep cfg)^[k] (P0.startState cfg)

/-- The part of the `useTimer` state determined by the configuration alone:
the `initialDuration` ref always holds the configured duration, and the
remaining time never exceeds it. -/
def CT2.BasicInv (cfg : Cfg) (st : CT2.TimerState) : Prop :=
  st.initialDuration = cfg.duration ∧ st.remainingTime ≤ cfg.duration

/-- The range invariant of `useTimer`: both stored stroke offsets stay inside
`[0, circumference]` (on top of `BasicInv`). -/
def CT2.Inv (cfg : Cfg) (st : CT2.TimerState) : Prop :=
  st.initialDuration = cfg.duration ∧ st.remainingTime ≤ cfg.duration ∧
  0 ≤ st.offset ∧ st.offset ≤ cfg.circumference ∧
  0 ≤ st.overtimeOffset ∧ st.overtimeOffset ≤ cfg.circumference

/-! ## Invariant lemmas -/

theorem CT2.basicInv_step (cfg : Cfg) (e : CT2.Ev) (st : CT2.TimerState)
    (h : CT2.BasicInv cfg st) : CT2.BasicInv cfg (CT2.step cfg e st) := by
  rcases st with ⟨r, o, p, ov, oo, ia, idur, uc⟩
  obtain ⟨h1, h2⟩ := h
  simp only at h1 h2
  cases e with
  | playPause =>
    simp only [CT2.step, CT2.handlePlayPause, CT2.settleInterval, CT2.BasicInv]
    split_ifs <;> simp_all
  | stop =>
    simp_all [CT2.step, CT2.handleStop, CT2.settleInterval, CT2.BasicInv]
  | tick =>
    simp only [CT2.step, CT2.tick, CT2.settleInterval, CT2.BasicInv]
    split_ifs <;> simp_all <;> omega

theorem CT2.basicInv_run (cfg : Cfg) (es : List CT2.Ev) :
    CT2.BasicInv cfg (CT2.run cfg es) := by
  have key : ∀ (l : List CT2.Ev) (st : CT2.TimerState), CT2.BasicInv cfg st →
      CT2.BasicInv cfg (l.foldl (fun s e => CT2.step cfg e s) st) := by
    intro l
    induction l with
    | nil => intro st h; exact h
    | cons e l ih => intro st h; exact ih _ (CT2.basicInv_step cfg e st h)
  exact key es (CT2.initState cfg) ⟨rfl, le_refl _⟩

theorem scaled_offset_bounds (C ρ : ℚ) (hC : 0 ≤ C) (h0 : 0 ≤ ρ) (h1 : ρ ≤ 1) :
    0 ≤ C * (1 - ρ) ∧ C * (1 - ρ) ≤ C :=
  ⟨mul_nonneg hC (by linarith), by nlinarith⟩

theorem CT2.currentRatio_bounds (cfg : Cfg) (st : CT2.TimerState)
    (hd : 0 < cfg.duration) (h1 : st.initialDuration = cfg.duration)
    (h2 : st.remainingTime ≤ cfg.duration) :
    0 ≤ CT2.currentRatio st ∧ CT2.currentRatio st ≤ 1 := by
  constructor
  · exact le_max_left _ _
  · apply max_le (by norm_num)
    rw [div_le_one (by rw [h1]; exact_mod_cast hd)]
    exact_mod_cast Int.cast_le.mpr (by omega : st.remainingTime - 1 ≤ st.initialDuration)

theorem CT2.overtimeRatio_bounds (cfg : Cfg) (st : CT2.TimerState)
    (hd : 0 < cfg.duration) (h1 : st.initialDuration = cfg.duration) :
    0 ≤ CT2.overtimeRatio st ∧ CT2.overtimeRatio st ≤ 1 := by
  have hdiv : CT2.overtimeDivisor st = cfg.duration := by
    rw [CT2.overtimeDivisor, h1, if_neg (by omega)]
  constructor
  · refine le_min (by norm_num) (div_nonneg (Nat.cast_nonneg _) ?_)
    rw [hdiv]
    exact_mod_cast hd.le
  · exact min_le_left _ _

theorem CT2.inv_step (cfg : Cfg) (e : CT2.Ev) (st : CT2.TimerState)
    (hd : 0 < cfg.duration) (hc : 0 ≤ cfg.circumference)
    (h : CT2.Inv cfg st) : CT2.Inv cfg (CT2.step cfg e st) := by
  obtain ⟨h1, h2, h3, h4, h5, h6⟩ := h
  have hcr := CT2.currentRatio_bounds cfg st hd h1 h2
  have hor := CT2.overtimeRatio_bounds cfg st hd h1
  have hb1 := scaled_offset_bounds cfg.circumference (CT2.currentRatio st) hc hcr.1 hcr.2
  have hb2 := scaled_offset_bounds cfg.circumference (CT2.overtimeRatio st) hc hor.1 hor.2
  cases e with
  | playPause =>
    simp only [CT2.step, CT2.handlePlayPause, CT2.settleInterval, CT2.Inv] at *
    split_ifs <;> simp_all
  | stop =>
    simp_all [CT2.step, CT2.handleStop, CT2.settleInterval, CT2.Inv]
  | tick =>
    simp only [CT2.step, CT2.tick, CT2.settleInterval, CT2.Inv] at *
    split_ifs <;> simp_all <;> omega

theorem CT2.inv_run (cfg : Cfg) (hd : 0 < cfg.duration) (hc : 0 ≤ cfg.circumference)
    (es : List CT2.Ev) : CT2.Inv cfg (CT2.run cfg es) := by
  have key : ∀ (l : List CT2.Ev) (st : CT2.TimerState), CT2.Inv cfg st →
      CT2.Inv cfg (l.foldl (fun s e => CT2.step cfg e s) st) := by
    intro l
    induction l with
    | nil => intro st h; exact h
    | cons e l ih => intro st h; exact ih _ (CT2.inv_step cfg e st hd hc h)
  exact key es (CT2.initState cfg) ⟨rfl, le_refl _, le_refl _, hc, hc, le_refl _⟩

theorem CT1.inv_iterate (d : ℚ) (hd : 0 < d) (n : ℕ) :
    (CT1.tick^[n] (CT1.initState d)).initialDuration = d ∧
    0 ≤ (CT1.tick^[n] (CT1.initState d)).remainingTime ∧
    (CT1.tick^[n] (CT1.initState d)).remainingTime ≤ d := by
  induction n with
  | zero => exact ⟨rfl, hd.le, le_refl _⟩
  | succ n ih =>
    rw [Function.iterate_succ_apply']
    obtain ⟨h1, h2, h3⟩ := ih
    set s := CT1.tick^[n] (CT1.initState d) with hs
    rcases s with ⟨r, ov, os, idur, dc⟩
    simp only at h1 h2 h3
    simp only [CT1.tick]
    split_ifs <;> simp_all
    all_goals first
      | linarith
      | (constructor <;> linarith)

theorem CT1.strokeDashoffset_bounds (d C : ℚ) (hd : 0 < d) (hc : 0 ≤ C) (n : ℕ) :
    ∃ v, CT1.calculateStrokeDashoffset C (CT1.tick^[n] (CT1.initState d)) = some v ∧
      0 ≤ v ∧ v ≤ C := by
  obtain ⟨h1, h2, h3⟩ := CT1.inv_iterate d hd n
  set s := CT1.tick^[n] (CT1.initState d) with hs
  by_cases hov : s.isOvertime
  · exact ⟨0, by simp [CT1.calculateStrokeDashoffset, hov], le_refl _, hc⟩
  · have hne : s.initialDuration ≠ 0 := by rw [h1]; exact ne_of_gt hd
    refine ⟨C * (1 - s.remainingTime / s.initialDuration), ?_, ?_⟩
    · simp [CT1.calculateStrokeDashoffset, hov, hne]
    · have hr0 : 0 ≤ s.remainingTime / s.initialDuration := by
        apply div_nonneg h2
        rw [h1]; exact hd.le
      have hr1 : s.remainingTime / s.initialDuration ≤ 1 := by
        rw [div_le_one (by rw [h1]; exact hd)]
        rw [h1]; exact h3
      exact scaled_offset_bounds C _ hc hr0 hr1

/-! ## Trace lemmas for the straight countdown run -/

theorem CT2.countdownMid (cfg : Cfg) (hd : 0 < cfg.duration) :
    ∀ k : ℕ, k < cfg.duration.toNat →
      (CT2.afterTicks cfg k).remainingTime = cfg.duration - k ∧
      (CT2.afterTicks cfg k).isPlaying = true ∧
      (CT2.afterTicks cfg k).intervalActive = true ∧
      (CT2.afterTicks cfg k).isOvertime = false ∧
      (CT2.afterTicks cfg k).initialDuration = cfg.duration ∧
      (CT2.afterTicks cfg k).updaterCompletes = 0 := by
  intro k
  induction k with
  | zero =>
    intro _
    have hne : ¬ (cfg.duration ≤ 0 ∧ (CT2.initState cfg).isPlaying = false) := by
      simp [CT2.initState]
      omega
    simp [CT2.afterTicks, CT2.startState, CT2.step, CT2.handlePlayPause,
      CT2.settleInterval, CT2.initState, hne]
  | succ k ih =>
    intro hk
    obtain ⟨h1, h2, h3, h4, h5, h6⟩ := ih (by omega)
    have hstep : CT2.afterTicks cfg (k + 1) =
        CT2.step cfg CT2.Ev.tick (CT2.afterTicks cfg k) := by
      rw [CT2.afterTicks, Function.iterate_succ_apply']
      rfl
    have hpos : ¬ ((CT2.afterTicks cfg k).remainingTime - 1 ≤ 0) := by
      rw [h1]
      omega
    rw [hstep]
    simp only [CT2.step, CT2.tick, h3, if_true, hpos, if_false, CT2.settleInterval]
    refine ⟨?_, ?_, ?_, ?_, ?_, ?_⟩ <;> simp [h1, h2, h4, h5, h6]
    ring

theorem CT2.countdownFinal (cfg : Cfg) (hd : 0 < cfg.duration) :
    (CT2.afterTicks cfg cfg.duration.toNat).remainingTime = 0 ∧
    (CT2.afterTicks cfg cfg.duration.toNat).isOvertime = true ∧
    (CT2.afterTicks cfg cfg.duration.toNat).updaterCompletes = 1 := by
  have hn : cfg.duration.toNat = (cfg.duration.toNat - 1) + 1 := by omega
  obtain ⟨h1, h2, h3, h4, h5, h6⟩ := CT2.countdownMid cfg hd (cfg.duration.toNat - 1) (by omega)
  have hstep : CT2.afterTicks cfg cfg.duration.toNat =
      CT2.step cfg CT2.Ev.tick (CT2.afterTicks cfg (cfg.duration.toNat - 1)) := by
    rw [hn, CT2.afterTicks, Function.iterate_succ_apply']
    rfl
  have hr1 : (CT2.afterTicks cfg (cfg.duration.toNat - 1)).remainingTime = 1 := by
    rw [h1]; omega
  have hle : (CT2.afterTicks cfg (cfg.duration.toNat - 1)).remainingTime - 1 ≤ 0 := by
    omega
  rw [hstep]
  simp only [CT2.step, CT2.tick, h3, if_true, hle, CT2.settleInterval, h4]
  simp [hr1, h6]

theorem P0.traceMid (cfg : Cfg) (hd : 0 < cfg.duration) :
    ∀ k : ℕ, k < cfg.duration.toNat →
      (P0.afterTicks cfg k).remainingTime = cfg.duration - k ∧
      (P0.afterTicks cfg k).isPlaying = true ∧
      (P0.afterTicks cfg k).intervalActive = true ∧
      (P0.afterTicks cfg k).initialDuration = cfg.duration ∧
      (P0.afterTicks cfg k).deferredCompletes = 0 ∧
      (P0.afterTicks cfg k).offset =
        (if k = 0 then 1 else
          cfg.circumference *
            (1 - ((cfg.duration - (k : ℤ) : ℤ) : ℚ) / ((cfg.duration : ℤ) : ℚ))) := by
  intro k
  induction k with
  | zero =>
    intro _
    simp [P0.afterTicks, P0.startState, P0.start, P0.settleInterval, P0.initState, hd]
  | succ k ih =>
    intro hk
    obtain ⟨h1, h2, h3, h4, h5, h6⟩ := ih (by omega)
    have hstep : P0.afterTicks cfg (k + 1) =
        P0.tickStep cfg (P0.afterTicks cfg k) := by
      rw [P0.afterTicks, Function.iterate_succ_apply']
      rfl
    have hpos : ¬ ((P0.afterTicks cfg k).remainingTime ≤ 1) := by
      rw [h1]
      omega
    have hpos2 : (0 : ℤ) < (P0.afterTicks cfg k).remainingTime - 1 := by
      rw [h1]
      omega
    rw [hstep]
    simp only [P0.tickStep, P0.tick, h3, if_true, hpos, if_false, P0.settleInterval]
    refine ⟨?_, ?_, ?_, ?_, ?_, ?_⟩ <;> simp [h1, h2, h4, h5, h6, hpos2]
    all_goals first
      | omega
      | (left; ring_nf)

theorem P0.traceFinal (cfg : Cfg) (hd : 0 < cfg.duration) :
    (P0.afterTicks cfg cfg.duration.toNat).remainingTime = 0 ∧
    (P0.afterTicks cfg cfg.duration.toNat).deferredCompletes = 1 ∧
    (P0.afterTicks cfg cfg.duration.toNat).intervalActive = false ∧
    (P0.afterTicks cfg cfg.duration.toNat).offset =
      (P0.afterTicks cfg (cfg.duration.toNat - 1)).offset := by
  have hn : cfg.duration.toNat = (cfg.duration.toNat - 1) + 1 := by omega
  obtain ⟨h1, h2, h3, h4, h5, h6⟩ := P0.traceMid cfg hd (cfg.duration.toNat - 1) (by omega)
  have hstep : P0.afterTicks cfg cfg.duration.toNat =
      P0.tickStep cfg (P0.afterTicks cfg (cfg.duration.toNat - 1)) := by
    rw [hn, P0.afterTicks, Function.iterate_succ_apply']
    rfl
  have hle : (P0.afterTicks cfg (cfg.duration.toNat - 1)).remainingTime ≤ 1 := by
    rw [h1]
    omega
  rw [hstep]
  simp only [P0.tickStep, P0.tick, h3, if_true, hle, P0.settleInterval]
  simp [h5]

/-! ## Claim theorems -/

/-- C2: `stop()` invoked from any state yields `remaining == configuredDuration`,
`running == false`, `overtime == false`, and releases the tick source, so that
subsequent simulated ticks cause no further state change. -/
theorem C2_stop_resets (cfg : Cfg) (st : CT2.TimerState) :
    (CT2.step cfg CT2.Ev.stop st).remainingTime = cfg.duration ∧
    (CT2.step cfg CT2.Ev.stop st).isPlaying = false ∧
    (CT2.step cfg CT2.Ev.stop st).isOvertime = false ∧
    (CT2.step cfg CT2.Ev.stop st).intervalActive = false ∧
    ∀ n : ℕ, (CT2.step cfg CT2.Ev.tick)^[n] (CT2.step cfg CT2.Ev.stop st) =
      CT2.step cfg CT2.Ev.stop st := by
  refine ⟨rfl, rfl, rfl, rfl, fun n => Function.iterate_fixed ?_ n⟩
  simp [CT2.step, CT2.handleStop, CT2.settleInterval, CT2.tick]

/-- C5: pressing play while `remaining <= 0` and not running first resets the
timer (remaining to the configured duration, overtime cleared, offsets reset,
`initialDuration` ref refreshed) before entering the running state. -/
theorem C5_restart_after_completion (cfg : Cfg) (st : CT2.TimerState)
    (h1 : st.remainingTime ≤ 0) (h2 : st.isPlaying = false) :
    (CT2.step cfg CT2.Ev.playPause st).remainingTime = cfg.duration ∧
    (CT2.step cfg CT2.Ev.playPause st).isPlaying = true ∧
    (CT2.step cfg CT2.Ev.playPause st).isOvertime = false ∧
    (CT2.step cfg CT2.Ev.playPause st).offset = 0 ∧
    (CT2.step cfg CT2.Ev.playPause st).overtimeOffset = cfg.circumference ∧
    (CT2.step cfg CT2.Ev.playPause st).initialDuration = cfg.duration ∧
    (CT2.step cfg CT2.Ev.playPause st).intervalActive = true := by
  simp [CT2.step, CT2.handlePlayPause, CT2.settleInterval, h1, h2]

/-- Witness for C5 at a concrete post-completion state. -/
theorem C5_restart_after_completion_witness :
    ((⟨0, 0, false, true, 0, false, 5, 1⟩ : CT2.TimerState).remainingTime ≤ 0) ∧
    (CT2.step ⟨5, 880⟩ CT2.Ev.playPause ⟨0, 0, false, true, 0, false, 5, 1⟩).remainingTime = 5 :=
  ⟨by decide,
    by
      have h := C5_restart_after_completion ⟨5, 880⟩ ⟨0, 0, false, true, 0, false, 5, 1⟩
        (by decide) (by decide)
      exact h.1⟩

/-- C6 counterexample: with `duration = 1`, start then one tick reaches a
running overtime state with `remaining = 0`; pausing freezes `remaining = 0`,
but pressing play again yields `remaining = 1`, not the frozen value — the
resume does not continue from where it left off. -/
theorem C6_pause_resume_counterexample :
    (CT2.run ⟨1, 880⟩ [CT2.Ev.playPause, CT2.Ev.tick]).isPlaying = true ∧
    (CT2.run ⟨1, 880⟩ [CT2.Ev.playPause, CT2.Ev.tick, CT2.Ev.playPause]).remainingTime = 0 ∧
    (CT2.run ⟨1, 880⟩
        [CT2.Ev.playPause, CT2.Ev.tick, CT2.Ev.playPause, CT2.Ev.playPause]).remainingTime = 1 := by
  refine ⟨by decide, by decide, by decide⟩

/-- C6 amended: from any running state with an active interval and
`remaining > 0` (i.e. not yet completed), pause followed by play restores the
state exactly, so the countdown resumes from the frozen `remaining` without
skipping or double-counting a tick. -/
theorem C6_pause_resume_exact (cfg : Cfg) (st : CT2.TimerState)
    (hp : st.isPlaying = true) (hi : st.intervalActive = true)
    (hr : 0 < st.remainingTime) :
    CT2.step cfg CT2.Ev.playPause (CT2.step cfg CT2.Ev.playPause st) = st := by
  rcases st with ⟨r, o, p, ov, oo, ia, idur, uc⟩
  simp only at hp hi hr
  have hr2 : ¬ (r ≤ 0) := by omega
  simp [CT2.step, CT2.handlePlayPause, CT2.settleInterval, hp, hi, hr2]

/-- Witness for the amended C6 at a concrete mid-countdown running state. -/
theorem C6_pause_resume_exact_witness :
    (0 : ℤ) < (⟨7, 264, true, false, 880, true, 10, 0⟩ : CT2.TimerState).remainingTime ∧
    CT2.step ⟨10, 880⟩ CT2.Ev.playPause
        (CT2.step ⟨10, 880⟩ CT2.Ev.playPause ⟨7, 264, true, false, 880, true, 10, 0⟩) =
      ⟨7, 264, true, false, 880, true, 10, 0⟩ :=
  ⟨by decide,
    C6_pause_resume_exact ⟨10, 880⟩ ⟨7, 264, true, false, 880, true, 10, 0⟩
      (by decide) (by decide) (by decide)⟩

/-- C4 counterexample: in `useTimer` (CircularTimer2.tsx line 185) the
completion callback is invoked directly inside the `setRemainingTime`
updater — it is not deferred through a zero-delay timeout.  With
`duration = 1`, start followed by one tick performs exactly one such
in-updater invocation. -/
theorem C4_deferred_callback_counterexample :
    (CT2.run ⟨1, 880⟩ [CT2.Ev.playPause, CT2.Ev.tick]).updaterCompletes = 1 := by
  decide

/-- C4 amended: in every variant `onComplete` fires at most once per
countdown-to-zero crossing — a tick invokes it exactly when it is the
crossing tick, and the crossing disarms further invocations (`useTimer` sets
`isOvertime`, the other variants stop or switch mode) — but only
`CircularTimer.tsx` and the unnamed variant defer the invocation through
`setTimeout(..., 0)`; `useTimer` in `CircularTimer2.tsx` invokes it directly
inside the `setRemainingTime` updater. -/
theorem C4_completion_dispatch :
    (∀ (cfg : Cfg) (st : CT2.TimerState),
      (CT2.tick cfg st).updaterCompletes =
        st.updaterCompletes +
          (if st.intervalActive = true ∧ st.isOvertime = false ∧ st.remainingTime ≤ 1
            then 1 else 0)) ∧
    (∀ (cfg : Cfg) (st : CT2.TimerState),
      ((CT2.tick cfg st).isOvertime = true ↔
        (st.isOvertime = true ∨ (st.intervalActive = true ∧ st.remainingTime ≤ 1))) ∧
      (CT2.handlePlayPause cfg st).updaterCompletes = st.updaterCompletes ∧
      (CT2.handleStop cfg st).updaterCompletes = st.updaterCompletes) ∧
    (∀ (cfg : Cfg) (st : P0.TimerState),
      (P0.tick cfg st).deferredCompletes =
        st.deferredCompletes +
          (if st.intervalActive = true ∧ st.remainingTime ≤ 1 then 1 else 0)) ∧
    (∀ st : CT1.CTState,
      (CT1.tick st).deferredCompletes =
        st.deferredCompletes +
          (if st.isOvertime = false ∧ st.remainingTime ≤ 1 / 10 then 1 else 0)) := by
  refine ⟨fun cfg st => ?_, fun cfg st => ⟨?_, ?_, ?_⟩, fun cfg st => ?_, fun st => ?_⟩
  · rcases st with ⟨r, o, p, ov, oo, ia, idur, uc⟩
    simp only [CT2.tick]
    split_ifs <;> simp_all
  · rcases st with ⟨r, o, p, ov, oo, ia, idur, uc⟩
    simp only [CT2.tick]
    split_ifs <;> simp_all
  · simp only [CT2.handlePlayPause]
    split_ifs <;> rfl
  · rfl
  · rcases st with ⟨r, o, p, ia, idur, dc⟩
    simp only [P0.tick]
    split_ifs <;> simp_all
  · rcases st with ⟨r, ov, os, idur, dc⟩
    simp only [CT1.tick]
    split_ifs <;> simp_all
    linarith

/-- C7 counterexample: with `duration = 0`, `CircularTimer.tsx`'s
`calculateStrokeDashoffset` evaluates `remaining / 0` (the embedded `none`,
JavaScript `NaN`); and with `duration = -5` (truthy, so the `|| 60` fallback
does not apply) `useTimer`'s overtime window is the non-positive `-5`, which
on the first tick after start produces an overtime offset outside
`[0, circumference]`. -/
theorem C7_division_guard_counterexample :
    CT1.calculateStrokeDashoffset 880 (CT1.initState 0) = none ∧
    CT2.overtimeDivisor (CT2.run ⟨-5, 880⟩ [CT2.Ev.playPause]) = -5 ∧
    ¬ ((CT2.run ⟨-5, 880⟩ [CT2.Ev.playPause, CT2.Ev.tick]).overtimeOffset ≤ 880) := by
  refine ⟨by decide, by decide, ?_⟩
  norm_num [CT2.run, CT2.step, CT2.initState, CT2.handlePlayPause, CT2.settleInterval,
    CT2.tick, CT2.overtimeRatio, CT2.overtimeDivisor, CT2.currentRatio]

/-- C8: `useTimer`'s `formatTime` renders an integer number of seconds as
zero-padded `MM:SS` with a `+` prefix exactly when in overtime:
`formatTime 125 = "02:05"`, and in overtime `formatTime 5 = "+00:05"`; in
general the output is the overtime prefix followed by the zero-padded minutes
and seconds of the decomposition `|s| = 60 * m + r`, `r < 60`. -/
theorem C8_formatTime_mmss :
    CT2.formatTime false 125 = "02:05" ∧
    CT2.formatTime true 5 = "+00:05" ∧
    ∀ (ov : Bool) (s : ℤ),
      CT2.formatTime ov s =
        (if ov then "+" else "") ++
          (zeroPad2 (s.natAbs / 60) ++ ":" ++ zeroPad2 (s.natAbs % 60)) ∧
      s.natAbs % 60 < 60 ∧
      s.natAbs = 60 * (s.natAbs / 60) + s.natAbs % 60 := by
  refine ⟨by decide, by decide, fun ov s => ⟨?_, Nat.mod_lt _ (by decide), ?_⟩⟩
  · cases ov <;> simp [CT2.formatTime, zeroPad2, String.append_assoc]
  · omega

/-- C9: `useTimer`'s `formatTime` depends only on the absolute value of its
argument (`Math.abs` is applied first), so `formatTime s = formatTime (-s)`
for every `s`; in particular a negative overtime remaining `-5` is displayed
as the positive `"+00:05"`. -/
theorem C9_formatTime_abs :
    (∀ (ov : Bool) (s : ℤ), CT2.formatTime ov s = CT2.formatTime ov (-s)) ∧
    CT2.formatTime true (-5) = "+00:05" := by
  refine ⟨fun ov s => ?_, by decide⟩
  simp [CT2.formatTime]

/-- C3: for every positive configured duration and every finite sequence of
play/pause/stop/tick events, the stored stroke offsets of `useTimer` lie in
`[0, circumference]` and the ratios its tick computes (the normal
`remaining / initialDuration` one and the overtime one) lie in `[0, 1]`;
likewise every stroke offset `CircularTimer.tsx` computes along a tick
sequence is defined (no `NaN`) and lies in `[0, circumference]`. -/
theorem C3_fractions_in_range (cfg : Cfg) (hd : 0 < cfg.duration)
    (hc : 0 ≤ cfg.circumference) (es : List CT2.Ev) :
    (0 ≤ (CT2.run cfg es).offset ∧ (CT2.run cfg es).offset ≤ cfg.circumference ∧
      0 ≤ (CT2.run cfg es).overtimeOffset ∧
      (CT2.run cfg es).overtimeOffset ≤ cfg.circumference) ∧
    (0 ≤ CT2.currentRatio (CT2.run cfg es) ∧ CT2.currentRatio (CT2.run cfg es) ≤ 1 ∧
      0 ≤ CT2.overtimeRatio (CT2.run cfg es) ∧ CT2.overtimeRatio (CT2.run cfg es) ≤ 1) ∧
    ∀ (d C : ℚ), 0 < d → 0 ≤ C → ∀ n : ℕ,
      ∃ v, CT1.calculateStrokeDashoffset C (CT1.tick^[n] (CT1.initState d)) = some v ∧
        0 ≤ v ∧ v ≤ C := by
  obtain ⟨h1, h2, h3, h4, h5, h6⟩ := CT2.inv_run cfg hd hc es
  obtain ⟨hc0, hc1⟩ := CT2.currentRatio_bounds cfg (CT2.run cfg es) hd h1 h2
  obtain ⟨ho0, ho1⟩ := CT2.overtimeRatio_bounds cfg (CT2.run cfg es) hd h1
  exact ⟨⟨h3, h4, h5, h6⟩, ⟨hc0, hc1, ho0, ho1⟩,
    fun d C hd2 hc2 n => CT1.strokeDashoffset_bounds d C hd2 hc2 n⟩

/-- Witness for C3 at `duration = 10`, `circumference = 880`, after start and
two ticks. -/
theorem C3_fractions_in_range_witness :
    0 ≤ (CT2.run ⟨10, 880⟩ [CT2.Ev.playPause, CT2.Ev.tick, CT2.Ev.tick]).offset ∧
    (CT2.run ⟨10, 880⟩ [CT2.Ev.playPause, CT2.Ev.tick, CT2.Ev.tick]).offset ≤ 880 := by
  have h := C3_fractions_in_range ⟨10, 880⟩ (by decide) (by norm_num)
    [CT2.Ev.playPause, CT2.Ev.tick, CT2.Ev.tick]
  exact ⟨h.1.1, h.1.2.1⟩

/-- C7 amended: with a falsy (zero) configured duration, every reachable
`useTimer` state has `remaining ≤ 0`, so every tick takes the overtime branch,
and the overtime window is the fixed positive fallback 60 — no division by a
non-positive divisor occurs in `useTimer` for duration 0.  (The original
claim fails for `CircularTimer.tsx`, which divides `remaining / 0`, and for
negative durations, which give `useTimer` a negative overtime window; see the
counterexample.) -/
theorem C7_zero_duration_fallback (cfg : Cfg) (h0 : cfg.duration = 0)
    (es : List CT2.Ev) :
    (CT2.run cfg es).remainingTime - 1 ≤ 0 ∧
    CT2.overtimeDivisor (CT2.run cfg es) = 60 ∧
    0 < CT2.overtimeDivisor (CT2.run cfg es) := by
  obtain ⟨h1, h2⟩ := CT2.basicInv_run cfg es
  have hdiv : CT2.overtimeDivisor (CT2.run cfg es) = 60 := by
    rw [CT2.overtimeDivisor, h1, h0, if_pos rfl]
  exact ⟨by omega, hdiv, by rw [hdiv]; norm_num⟩

/-- Witness for the amended C7 at `duration = 0` after start and one tick. -/
theorem C7_zero_duration_fallback_witness :
    CT2.overtimeDivisor (CT2.run ⟨0, 880⟩ [CT2.Ev.playPause, CT2.Ev.tick]) = 60 :=
  (C7_zero_duration_fallback ⟨0, 880⟩ rfl [CT2.Ev.playPause, CT2.Ev.tick]).2.1

/-- C1: for every positive configured duration, after pressing play on a
fresh widget and letting exactly `duration` ticks fire with no pause, the
remaining time decreases by exactly one unit per tick (`duration - k` after
`k` ticks), `onComplete` has not fired before the final tick, and at the
final tick the remaining time is 0, `useTimer` has entered overtime, and
`onComplete` has fired exactly once — in both the `useTimer` variant and the
unnamed no-overtime variant. -/
theorem C1_countdown_completes (cfg : Cfg) (hd : 0 < cfg.duration) :
    (∀ k : ℕ, k ≤ cfg.duration.toNat →
      (CT2.afterTicks cfg k).remainingTime = cfg.duration - k ∧
      (P0.afterTicks cfg k).remainingTime = cfg.duration - k) ∧
    (∀ k : ℕ, k < cfg.duration.toNat →
      (CT2.afterTicks cfg k).updaterCompletes = 0 ∧
      (P0.afterTicks cfg k).deferredCompletes = 0) ∧
    (CT2.afterTicks cfg cfg.duration.toNat).remainingTime = 0 ∧
    (CT2.afterTicks cfg cfg.duration.toNat).isOvertime = true ∧
    (CT2.afterTicks cfg cfg.duration.toNat).updaterCompletes = 1 ∧
    (P0.afterTicks cfg cfg.duration.toNat).remainingTime = 0 ∧
    (P0.afterTicks cfg cfg.duration.toNat).deferredCompletes = 1 := by
  obtain ⟨hf1, hf2, hf3⟩ := CT2.countdownFinal cfg hd
  obtain ⟨hp1, hp2, hp3, hp4⟩ := P0.traceFinal cfg hd
  refine ⟨fun k hk => ?_,
    fun k hk => ⟨(CT2.countdownMid cfg hd k hk).2.2.2.2.2, (P0.traceMid cfg hd k hk).2.2.2.2.1⟩,
    hf1, hf2, hf3, hp1, hp2⟩
  rcases Nat.lt_or_ge k cfg.duration.toNat with hlt | hge
  · exact ⟨(CT2.countdownMid cfg hd k hlt).1, (P0.traceMid cfg hd k hlt).1⟩
  · have hk2 : k = cfg.duration.toNat := by omega
    subst hk2
    constructor
    · rw [hf1]; omega
    · rw [hp1]; omega

/-- Witness for C1 at `duration = 3`. -/
theorem C1_countdown_completes_witness :
    (CT2.afterTicks ⟨3, 880⟩ 3).remainingTime = 0 ∧
    (CT2.afterTicks ⟨3, 880⟩ 3).isOvertime = true ∧
    (CT2.afterTicks ⟨3, 880⟩ 3).updaterCompletes = 1 ∧
    (P0.afterTicks ⟨3, 880⟩ 3).deferredCompletes = 1 := by
  have h := C1_countdown_completes ⟨3, 880⟩ (by decide)
  exact ⟨h.2.2.1, h.2.2.2.1, h.2.2.2.2.1, h.2.2.2.2.2.2⟩

/-- C10: in the unnamed no-overtime variant the offset is initialized to the
constant 1 (not derived from remaining and circumference); a completion tick
(interval active, `remaining ≤ 1`) changes only the remaining time (to 0) and
the tick source, leaving the offset (and the other fields) unchanged; hence
along the start-then-tick run the offset after the completion tick equals the
offset after the previous tick (which corresponds to `remaining = 1`), and
the offset never reaches the circumference, the value that would correspond
to `remaining = 0`. -/
theorem C10_offset_frame (cfg : Cfg) (hd : 0 < cfg.duration)
    (hC : 1 < cfg.circumference) :
    (P0.initState cfg).offset = 1 ∧
    (∀ st : P0.TimerState, st.intervalActive = true → st.remainingTime ≤ 1 →
      (P0.tick cfg st).offset = st.offset ∧
      (P0.tick cfg st).isPlaying = st.isPlaying ∧
      (P0.tick cfg st).initialDuration = st.initialDuration ∧
      (P0.tick cfg st).remainingTime = 0 ∧
      (P0.tick cfg st).intervalActive = false) ∧
    (P0.afterTicks cfg cfg.duration.toNat).offset =
      (P0.afterTicks cfg (cfg.duration.toNat - 1)).offset ∧
    ∀ k : ℕ, k ≤ cfg.duration.toNat →
      (P0.afterTicks cfg k).offset ≠ cfg.circumference := by
  obtain ⟨hp1, hp2, hp3, hp4⟩ := P0.traceFinal cfg hd
  have hdq : (0 : ℚ) < ((cfg.duration : ℤ) : ℚ) := by exact_mod_cast hd
  have hne : ∀ j : ℕ, j < cfg.duration.toNat →
      (P0.afterTicks cfg j).offset ≠ cfg.circumference := by
    intro j hj
    rw [(P0.traceMid cfg hd j hj).2.2.2.2.2]
    by_cases hj0 : j = 0
    · rw [if_pos hj0]
      exact ne_of_lt hC
    · rw [if_neg hj0]
      intro heq
      have hx : (0 : ℚ) < ((cfg.duration - (j : ℤ) : ℤ) : ℚ) / ((cfg.duration : ℤ) : ℚ) := by
        refine div_pos ?_ hdq
        exact_mod_cast (by omega : (0 : ℤ) < cfg.duration - (j : ℤ))
      nlinarith
  refine ⟨rfl, fun st hi hr => ?_, hp4, fun k hk => ?_⟩
  · rcases st with ⟨r, o, p, ia, idur, dc⟩
    simp only at hi hr
    simp [P0.tick, hi, hr]
  · rcases Nat.lt_or_ge k cfg.duration.toNat with hlt | hge
    · exact hne k hlt
    · have hk2 : k = cfg.duration.toNat := by omega
      subst hk2
      rw [hp4]
      exact hne (cfg.duration.toNat - 1) (by omega)

/-- Witness for C10 at `duration = 3`, `circumference = 880`. -/
theorem C10_offset_frame_witness :
    (P0.initState (⟨3, 880⟩ : Cfg)).offset = 1 ∧
    (P0.afterTicks ⟨3, 880⟩ 3).offset ≠ 880 := by
  have h := C10_offset_frame ⟨3, 880⟩ (by decide) (by norm_num)
  exact ⟨h.1, h.2.2.2 3 (by decide)⟩

end CircleCounter
